import Mathlib

/-!
Shallow embedding of the `smallsh` shell (`src/kiro_smallsh/smallsh.c`) and
verification of its specification claims.

The embedding follows the C source function by function:
  * `tokenize_line`            (smallsh.c, lines 64-104)
  * `parse_command`            (smallsh.c, lines 154-309)
  * `get_builtin_type`         (smallsh.c, lines 771-785)
  * `execute_builtin`          (smallsh.c, lines 789-859)
  * `execute_external_command` (smallsh.c, lines 863-953)
  * `check_background_processes` (smallsh.c, lines 956-983)
  * `cleanup_all_background_processes` (smallsh.c, lines 681-694)

Nondeterministic OS interactions (fork, waitpid, chdir, getenv) are passed
in as explicit parameters; process-wide mutable globals become an explicit
`ShellState` record.  Console output of a call is collected in a list of
strings (the job tracker additionally tags each printed report with the pid
it printed, mirroring the pid argument of the corresponding printf).
-/

namespace Smallsh

/-- MAX_LINE_LENGTH from smallsh.c line 12. -/
def MAX_LINE_LENGTH : Nat := 2048

/-- MAX_ARGS from smallsh.c line 13. -/
def MAX_ARGS : Nat := 512

/-- MAX_BG_PROCESSES from smallsh.c line 14. -/
def MAX_BG_PROCESSES : Nat := 100

/-- The strtok delimiters `" \t\n"` used by `tokenize_line`. -/
def isDelim (c : Char) : Bool := c = ' ' || c = '\t' || c = '\n'

/-- Accumulating splitter: the strtok loop of `tokenize_line`.  `acc` holds
the (reversed) characters of the token currently being read. -/
def splitAux : List Char → List Char → List String
  | [], acc => if acc.isEmpty then [] else [String.mk acc.reverse]
  | c :: cs, acc =>
    if isDelim c then
      if acc.isEmpty then splitAux cs []
      else String.mk acc.reverse :: splitAux cs []
    else splitAux cs (c :: acc)

/-- All maximal delimiter-free runs of a line, in order (strtok semantics:
no empty tokens). -/
def splitToks (line : List Char) : List String := splitAux line []

/-- The two failure modes of `tokenize_line` (smallsh.c lines 70-74 and
94-101).  The error constructors carry no token data: on failure the C code
frees every partially allocated token before returning -1. -/
inductive TokenizeError
  | lineTooLong
  | tooManyTokens
deriving DecidableEq, Repr

/-- `tokenize_line` (smallsh.c lines 64-104): reject lines longer than
`MAX_LINE_LENGTH`; collect whitespace-separated tokens; reject if more than
`maxTokens` tokens would be produced. -/
def tokenize_line (line : List Char) (maxTokens : Nat) :
    Except TokenizeError (List String) :=
  if line.length > MAX_LINE_LENGTH then .error .lineTooLong
  else if (splitToks line).length > maxTokens then .error .tooManyTokens
  else .ok (splitToks line)

/-- `command_t` (smallsh.c lines 17-23).  `command` is `Option` because the
C field starts out NULL; a successful parse always fills it. -/
structure command_t where
  command : Option String
  args : List String
  input_file : Option String
  output_file : Option String
  background : Bool
deriving DecidableEq, Repr

/-- `init_command` (smallsh.c lines 117-125). -/
def init_command : command_t :=
  { command := none, args := [], input_file := none, output_file := none,
    background := false }

/-- One non-operator token consumed by the parse loop: if `arg_index == 0`
the token becomes both the command name and args[0], otherwise it is
appended to the argument list (smallsh.c lines 264-293). -/
def addArg (cmd : command_t) (t : String) : command_t :=
  if cmd.args.isEmpty then { cmd with command := some t, args := [t] }
  else { cmd with args := cmd.args ++ [t] }

/-- The token-processing loop of `parse_command` (smallsh.c lines 197-294).
`none` models the `return -1` error paths (missing redirect filename). -/
def procTokens : List String → command_t → Option command_t
  | [], cmd => some cmd
  | t :: rest, cmd =>
    if t = "<" then
      match rest with
      | [] => none
      | f :: rest2 => procTokens rest2 { cmd with input_file := some f }
    else if t = ">" then
      match rest with
      | [] => none
      | f :: rest2 => procTokens rest2 { cmd with output_file := some f }
    else if t = "&" then
      if rest.isEmpty then some { cmd with background := true }
      else procTokens rest (addArg cmd t)
    else procTokens rest (addArg cmd t)

/-- Result of `parse_command`: 0 (`ok`), -1 (`err`), 1 (`skip`). -/
inductive ParseResult
  | ok (cmd : command_t)
  | err
  | skip
deriving DecidableEq, Repr

/-- Post-tokenization part of `parse_command` (smallsh.c lines 189-308):
error on zero tokens, run the token loop, error if no command name. -/
def parseToks (toks : List String) : ParseResult :=
  if toks.length = 0 then .err
  else
    match procTokens toks init_command with
    | none => .err
    | some cmd => if cmd.command.isSome then .ok cmd else .err

/-- `parse_command` (smallsh.c lines 154-309): skip blank and comment
lines, tokenize, then process tokens. -/
def parse_command (line : List Char) : ParseResult :=
  match line.dropWhile (fun c => c = ' ' || c = '\t') with
  | [] => .skip
  | c :: _ =>
    if c = '\n' then .skip
    else if c = '#' then .skip
    else
      match tokenize_line line MAX_ARGS with
      | .error _ => .err
      | .ok toks => parseToks toks

/-- `parse_command` applied to a Lean string literal. -/
def parseLine (s : String) : ParseResult := parse_command s.data

/-- `bg_process_t` (smallsh.c lines 34-37). -/
structure bg_process_t where
  pid : Nat
  active : Bool
deriving DecidableEq, Repr

/-- The process-wide mutable globals of smallsh.c (lines 40-44) together
with `main`'s local `status` variable (line 330, threaded everywhere as the
`last_status` out-parameter) and the working directory changed by `cd`. -/
structure ShellState where
  background_processes : List bg_process_t
  foreground_only_mode : Bool
  last_exit_status : Nat
  last_signal : Nat
  main_status : Nat
  cwd : String
deriving DecidableEq, Repr

/-- Outcome of the `fork()` call in `execute_external_command`. -/
inductive ForkResult
  | failure
  | success (pid : Nat)
deriving DecidableEq, Repr

/-- Outcome of the blocking `waitpid` on a foreground child
(smallsh.c lines 925-948): error, normal exit, or signal termination. -/
inductive WaitOutcome
  | failure
  | exited (code : Nat)
  | signaled (sig : Nat)
deriving DecidableEq, Repr

/-- The background decision of `execute_external_command`
(smallsh.c line 869): `run_background = cmd->background && !foreground_only`. -/
def run_in_background (cmd : command_t) (foreground_only : Bool) : Bool :=
  cmd.background && !foreground_only

/-- Parent-side behavior of `execute_external_command` (smallsh.c lines
863-953).  `fork` and `wait` are the OS responses; the result is the new
shell state, the lines printed by the parent, and the C return value.
The child-side code (signal dispositions, redirection, execvp) runs in the
child process image and never returns to shell logic, so it does not appear
here. -/
def execute_external_command (cmd : command_t) (st : ShellState)
    (foreground_only : Bool) (fork : ForkResult) (wait : WaitOutcome) :
    ShellState × List String × Int :=
  let run_background := run_in_background cmd foreground_only
  match fork with
  | .failure => ({ st with main_status := 1 }, ["fork failed"], -1)
  | .success child_pid =>
    if run_background then
      let st1 :=
        if st.background_processes.length < MAX_BG_PROCESSES then
          { st with background_processes :=
              st.background_processes ++ [⟨child_pid, true⟩] }
        else st
      (st1, [s!"background pid is {child_pid}"], 0)
    else
      match wait with
      | .failure => ({ st with main_status := 1 }, ["waitpid failed"], -1)
      | .exited code =>
        ({ st with main_status := code, last_exit_status := code,
                   last_signal := 0 }, [], 0)
      | .signaled sig =>
        ({ st with main_status := sig, last_signal := sig,
                   last_exit_status := 0 },
         [s!"terminated by signal {sig}"], 0)

/-- `builtin_type_t` (smallsh.c lines 26-31). -/
inductive builtin_type_t
  | BUILTIN_EXIT
  | BUILTIN_CD
  | BUILTIN_STATUS
  | NOT_BUILTIN
deriving DecidableEq, Repr

/-- `get_builtin_type` (smallsh.c lines 771-785). -/
def get_builtin_type (command : String) : builtin_type_t :=
  if command = "exit" then .BUILTIN_EXIT
  else if command = "cd" then .BUILTIN_CD
  else if command = "status" then .BUILTIN_STATUS
  else .NOT_BUILTIN

/-- `cleanup_all_background_processes` (smallsh.c lines 681-694): the pids
that receive SIGTERM (and then SIGKILL) are exactly the active tracked
jobs, in registry order. -/
def cleanup_all_background_processes (jobs : List bg_process_t) : List Nat :=
  (jobs.filter (fun j => j.active)).map (fun j => j.pid)

/-- The line printed by the `status` built-in (smallsh.c lines 843-851):
signal report when `last_signal != 0`, exit report otherwise. -/
def status_report (st : ShellState) : String :=
  if st.last_signal ≠ 0 then s!"terminated by signal {st.last_signal}"
  else s!"exit value {st.last_exit_status}"

/-- Result of `execute_builtin`: `exitShell` models the `exit(0)` path
(carrying the pids the cleanup targets), `ret` models a normal return with
the C return code, the resulting state, and the printed lines. -/
inductive BuiltinResult
  | exitShell (terminated : List Nat)
  | ret (code : Int) (st : ShellState) (output : List String)
deriving DecidableEq, Repr

/-- `execute_builtin` (smallsh.c lines 789-859).  `home` is `getenv("HOME")`,
`chdir_ok` tells whether `chdir(target)` succeeds (in which case the
working directory becomes `target`). -/
def execute_builtin (cmd : command_t) (st : ShellState)
    (home : Option String) (chdir_ok : String → Bool) : BuiltinResult :=
  match cmd.command with
  | none => .ret (-1) st []
  | some c =>
    match get_builtin_type c with
    | .BUILTIN_EXIT =>
      .exitShell (cleanup_all_background_processes st.background_processes)
    | .BUILTIN_CD =>
      let arg_count := cmd.args.length - 1
      if arg_count = 0 then
        match home with
        | none => .ret (-1) st ["cd: HOME environment variable not set"]
        | some target =>
          if chdir_ok target then
            .ret 0 { st with cwd := target }
              [s!"Changed directory to: {target}"]
          else .ret (-1) st ["cd"]
      else if arg_count = 1 then
        let target := (cmd.args.get? 1).getD ""
        if chdir_ok target then
          .ret 0 { st with cwd := target }
            [s!"Changed directory to: {target}"]
        else .ret (-1) st ["cd"]
      else .ret (-1) st ["cd: too many arguments"]
    | .BUILTIN_STATUS => .ret 0 st [status_report st]
    | .NOT_BUILTIN => .ret (-1) st []

/-- Result of the non-blocking `waitpid(pid, &status, WNOHANG)` in
`check_background_processes`: 0 (still running), -1 (error), or a positive
result carrying the collected termination status. -/
inductive BgPoll
  | stillRunning
  | checkError
  | exitedBg (code : Nat)
  | signaledBg (sig : Nat)
deriving DecidableEq, Repr

/-- Report printed when a background child exited normally
(smallsh.c lines 966-969). -/
def bg_done_exit_msg (p code : Nat) : String :=
  s!"background pid {p} is done: exit value {code}"

/-- Report printed when a background child was killed by a signal
(smallsh.c lines 970-974). -/
def bg_done_signal_msg (p sig : Nat) : String :=
  s!"background pid {p} is done: terminated by signal {sig}"

/-- One iteration of the loop body of `check_background_processes`
(smallsh.c lines 957-982): updated job entry plus the report it prints,
tagged with the pid the printf received. -/
def check_one (poll : Nat → BgPoll) (j : bg_process_t) :
    bg_process_t × List (Nat × String) :=
  if j.active then
    match poll j.pid with
    | .stillRunning => (j, [])
    | .checkError => ({ j with active := false }, [])
    | .exitedBg code =>
      ({ j with active := false }, [(j.pid, bg_done_exit_msg j.pid code)])
    | .signaledBg sig =>
      ({ j with active := false }, [(j.pid, bg_done_signal_msg j.pid sig)])
  else (j, [])

/-- `check_background_processes` (smallsh.c lines 956-983): fold
`check_one` over the registry, keeping entry order, collecting reports. -/
def check_background_processes (jobs : List bg_process_t)
    (poll : Nat → BgPoll) : List bg_process_t × List (Nat × String) :=
  match jobs with
  | [] => ([], [])
  | j :: rest =>
    let r1 := check_one poll j
    let r2 := check_background_processes rest poll
    (r1.1 :: r2.1, r1.2 ++ r2.2)

example : parseLine "cmd < infile" =
    .ok ⟨some "cmd", ["cmd"], some "infile", none, false⟩ := by decide

example : parseLine "cmd <infile" =
    .ok ⟨some "cmd", ["cmd", "<infile"], none, none, false⟩ := by decide

example : parseLine "cmd < &" =
    .ok ⟨some "cmd", ["cmd"], some "&", none, false⟩ := by decide

example : parseLine "cmd & extra" =
    .ok ⟨some "cmd", ["cmd", "&", "extra"], none, none, false⟩ := by decide

example : parseLine "sleep 10 &" =
    .ok ⟨some "sleep", ["sleep", "10"], none, none, true⟩ := by decide

example : parseLine "cat <" = .err := by decide

example : parseLine "   " = .skip := by decide

example : parseLine "# comment" = .skip := by decide

/-! ### Helper lemmas about the parser -/

/-- A token that the parse loop never treats specially. -/
def plainTok (t : String) : Prop := t ≠ "<" ∧ t ≠ ">" ∧ t ≠ "&"

instance (t : String) : Decidable (plainTok t) := by
  unfold plainTok; infer_instance

theorem procTokens_nil (pc : command_t) : procTokens [] pc = some pc := rfl

theorem procTokens_input (f : String) (rest : List String) (pc : command_t) :
    procTokens ("<" :: f :: rest) pc =
      procTokens rest { pc with input_file := some f } := rfl

theorem procTokens_output (f : String) (rest : List String) (pc : command_t) :
    procTokens (">" :: f :: rest) pc =
      procTokens rest { pc with output_file := some f } := rfl

theorem procTokens_input_last (pc : command_t) :
    procTokens ["<"] pc = none := rfl

theorem procTokens_output_last (pc : command_t) :
    procTokens [">"] pc = none := rfl

theorem procTokens_amp_final (pc : command_t) :
    procTokens ["&"] pc = some { pc with background := true } := rfl

theorem procTokens_amp_mid (t : String) (rest : List String) (pc : command_t) :
    procTokens ("&" :: t :: rest) pc =
      procTokens (t :: rest) (addArg pc "&") := rfl

theorem procTokens_plain (t : String) (rest : List String) (pc : command_t)
    (h : plainTok t) :
    procTokens (t :: rest) pc = procTokens rest (addArg pc t) := by
  obtain ⟨h1, h2, h3⟩ := h
  cases rest with
  | nil => simp [procTokens, h1, h2, h3]
  | cons u us => simp [procTokens, h1, h2, h3]

theorem addArg_background (pc : command_t) (t : String) :
    (addArg pc t).background = pc.background := by
  unfold addArg; split <;> rfl

theorem addArg_args (pc : command_t) (t : String) :
    (addArg pc t).args = pc.args ++ [t] := by
  unfold addArg
  split
  · next h => simp [List.isEmpty_iff] at h; simp [h]
  · rfl

/-- The traversal that decides the background flag: walk the token list the
way the parse loop does (each operator consumes the following token) and
test whether the walk ends by seeing `&` as the last token. -/
def ampLast : List String → Bool
  | [] => false
  | t :: rest =>
    if t = "<" then
      match rest with
      | [] => false
      | _ :: rest2 => ampLast rest2
    else if t = ">" then
      match rest with
      | [] => false
      | _ :: rest2 => ampLast rest2
    else if t = "&" then
      if rest.isEmpty then true else ampLast rest
    else ampLast rest

theorem ampLast_nil : ampLast [] = false := rfl

theorem ampLast_input (f : String) (rest : List String) :
    ampLast ("<" :: f :: rest) = ampLast rest := rfl

theorem ampLast_output (f : String) (rest : List String) :
    ampLast (">" :: f :: rest) = ampLast rest := rfl

theorem ampLast_amp_final : ampLast ["&"] = true := rfl

theorem ampLast_amp_mid (t : String) (rest : List String) :
    ampLast ("&" :: t :: rest) = ampLast (t :: rest) := rfl

theorem ampLast_plain (t : String) (rest : List String) (h : plainTok t) :
    ampLast (t :: rest) = ampLast rest := by
  obtain ⟨h1, h2, h3⟩ := h
  cases rest with
  | nil => simp [ampLast, h1, h2, h3]
  | cons u us => simp [ampLast, h1, h2, h3]

/-- Auxiliary, with a fuel bound for the induction: the background flag
produced by the parse loop is the initial flag or-ed with `ampLast` of the
tokens it walks. -/
theorem procTokens_background_aux :
    ∀ (n : Nat) (ts : List String) (pc pc2 : command_t), ts.length ≤ n →
      procTokens ts pc = some pc2 →
      pc2.background = (pc.background || ampLast ts) := by
  intro n
  induction n with
  | zero =>
    intro ts pc pc2 hlen h
    have hnil : ts = [] := List.length_eq_zero.mp (Nat.le_zero.mp hlen)
    subst hnil
    rw [procTokens_nil] at h
    cases h
    simp [ampLast_nil]
  | succ n ih =>
    intro ts pc pc2 hlen h
    cases ts with
    | nil =>
      rw [procTokens_nil] at h
      cases h
      simp [ampLast_nil]
    | cons t rest =>
      by_cases h1 : t = "<"
      · subst h1
        cases rest with
        | nil => rw [procTokens_input_last] at h; cases h
        | cons f rest2 =>
          rw [procTokens_input] at h
          have hb := ih rest2 _ _
            (by simp only [List.length_cons] at hlen ⊢; omega) h
          rw [ampLast_input, hb]
      · by_cases h2 : t = ">"
        · subst h2
          cases rest with
          | nil => rw [procTokens_output_last] at h; cases h
          | cons f rest2 =>
            rw [procTokens_output] at h
            have hb := ih rest2 _ _
              (by simp only [List.length_cons] at hlen ⊢; omega) h
            rw [ampLast_output, hb]
        · by_cases h3 : t = "&"
          · subst h3
            cases rest with
            | nil =>
              rw [procTokens_amp_final] at h
              cases h
              simp [ampLast_amp_final]
            | cons u us =>
              rw [procTokens_amp_mid] at h
              rw [ampLast_amp_mid]
              have hb := ih (u :: us) _ _
                (by simp only [List.length_cons] at hlen ⊢; omega) h
              rw [hb, addArg_background]
          · rw [procTokens_plain t rest pc ⟨h1, h2, h3⟩] at h
            rw [ampLast_plain t rest ⟨h1, h2, h3⟩]
            have hb := ih rest _ _
              (by simp only [List.length_cons] at hlen ⊢; omega) h
            rw [hb, addArg_background]

theorem procTokens_background (ts : List String) (pc pc2 : command_t)
    (h : procTokens ts pc = some pc2) :
    pc2.background = (pc.background || ampLast ts) :=
  procTokens_background_aux ts.length ts pc pc2 le_rfl h

theorem addArg_init (t : String) :
    addArg init_command t = ⟨some t, [t], none, none, false⟩ := rfl

/-- A successful tokenization returns exactly the whitespace split of the
line. -/
theorem tokenize_line_ok (line : List Char) (m : Nat) (ts : List String)
    (h : tokenize_line line m = .ok ts) : ts = splitToks line := by
  unfold tokenize_line at h
  split at h
  · cases h
  · split at h
    · cases h
    · cases h; rfl

/-- A successful parse is exactly a successful run of the token loop on the
whitespace split of the line, starting from the empty command. -/
theorem parseToks_ok (ts : List String) (cmd : command_t)
    (h : parseToks ts = .ok cmd) : procTokens ts init_command = some cmd := by
  unfold parseToks at h
  split at h
  · cases h
  · split at h
    · cases h
    · split at h
      · cases h
        next hp _ => exact hp
      · cases h

theorem parse_command_ok (line : List Char) (cmd : command_t)
    (h : parse_command line = .ok cmd) :
    procTokens (splitToks line) init_command = some cmd := by
  unfold parse_command at h
  split at h
  · cases h
  · split at h
    · cases h
    · split at h
      · cases h
      · split at h
        · cases h
        · next ts htok =>
          have hts : ts = splitToks line :=
            tokenize_line_ok line MAX_ARGS ts htok
          subst hts
          exact parseToks_ok _ _ h

/-- Any non-operator token is appended to the argument list (becoming the
command name as well when it is the first). -/
theorem procTokens_trailing_op (ts : List String)
    (hts : ∀ t ∈ ts, plainTok t) :
    ∀ pc, procTokens (ts ++ ["<"]) pc = none ∧
          procTokens (ts ++ [">"]) pc = none := by
  induction ts with
  | nil =>
    intro pc
    exact ⟨procTokens_input_last pc, procTokens_output_last pc⟩
  | cons t rest ih =>
    intro pc
    have ht : plainTok t := hts t (by simp)
    have hrest : ∀ u ∈ rest, plainTok u := fun u hu => hts u (by simp [hu])
    refine ⟨?_, ?_⟩
    · rw [List.cons_append, procTokens_plain t _ _ ht]
      exact (ih hrest (addArg pc t)).1
    · rw [List.cons_append, procTokens_plain t _ _ ht]
      exact (ih hrest (addArg pc t)).2

/-! ### Claims about the parser (C4, C5, C10) -/

/-- Claim C4 (counterexample): on the line `cmd < &` the final token of
the line is `&`, the parse succeeds, and yet the background flag is false
(the `&` was consumed as the input-redirection filename).  This refutes
"background is set if and only if `&` is the final token of the line". -/
theorem background_iff_trailing_amp_counterexample :
    (splitToks "cmd < &".data).getLast? = some "&" ∧
    parseLine "cmd < &" = .ok ⟨some "cmd", ["cmd"], some "&", none, false⟩ := by
  decide

/-- Claim C4 (amended): for every successfully parsed line, the background
flag equals `ampLast` of the token list — true exactly when the walk of
the parse loop (in which each standalone redirection operator consumes the
following token as a filename) ends with a final `&` token.  In particular
a mid-line `&` not consumed as a redirect filename is kept as a literal
argument (`cmd & extra`), while a final `&` consumed as a redirect
filename does not set background (`cmd < &`). -/
theorem background_iff_trailing_amp :
    (∀ (line : List Char) (cmd : command_t),
      parse_command line = .ok cmd →
      cmd.background = ampLast (splitToks line))
    ∧ (∀ (t : String) (rest : List String) (pc : command_t),
        procTokens ("&" :: t :: rest) pc = procTokens (t :: rest) (addArg pc "&"))
    ∧ parseLine "cmd & extra" =
        .ok ⟨some "cmd", ["cmd", "&", "extra"], none, none, false⟩
    ∧ parseLine "cmd < &" =
        .ok ⟨some "cmd", ["cmd"], some "&", none, false⟩ := by
  refine ⟨?_, procTokens_amp_mid, by decide, by decide⟩
  intro line cmd h
  have hp := parse_command_ok line cmd h
  have hb := procTokens_background _ _ _ hp
  simpa [init_command] using hb

/-- Witness for `background_iff_trailing_amp` at the line `cmd x &`. -/
theorem background_iff_trailing_amp_witness :
    (⟨some "cmd", ["cmd", "x"], none, none, true⟩ : command_t).background =
      ampLast (splitToks "cmd x &".data) :=
  background_iff_trailing_amp.1 "cmd x &".data
    ⟨some "cmd", ["cmd", "x"], none, none, true⟩ (by decide)

/-- Claim C5: `<` and `>` act as redirection operators only as standalone
whitespace-delimited tokens.  A standalone `<` followed by a filename
yields that input redirect; a glued token such as `<infile` is an ordinary
literal argument; a token reached in operator position with no following
token is a parse failure. -/
theorem redirection_operator_rules :
    (∀ c f : String, plainTok c → plainTok f →
      parseToks [c, "<", f] = .ok ⟨some c, [c], some f, none, false⟩)
    ∧ (∀ c t : String, plainTok c → plainTok t →
      parseToks [c, t] = .ok ⟨some c, [c, t], none, none, false⟩)
    ∧ parseLine "cmd < infile" =
        .ok ⟨some "cmd", ["cmd"], some "infile", none, false⟩
    ∧ parseLine "cmd <infile" =
        .ok ⟨some "cmd", ["cmd", "<infile"], none, none, false⟩
    ∧ (∀ (c : String) (ts : List String), plainTok c →
        (∀ t ∈ ts, plainTok t) →
        parseToks (c :: ts ++ ["<"]) = .err ∧
        parseToks (c :: ts ++ [">"]) = .err) := by
  refine ⟨?_, ?_, by decide, by decide, ?_⟩
  · intro c f hc hf
    unfold parseToks
    rw [procTokens_plain _ _ _ hc, addArg_init, procTokens_input,
        procTokens_nil]
    simp
  · intro c t hc ht
    unfold parseToks
    rw [procTokens_plain _ _ _ hc, addArg_init, procTokens_plain _ _ _ ht,
        procTokens_nil]
    simp [addArg]
  · intro c ts hc hts
    have hin := procTokens_trailing_op ts hts (addArg init_command c)
    constructor
    · unfold parseToks
      rw [show c :: ts ++ ["<"] = c :: (ts ++ ["<"]) from rfl,
          procTokens_plain _ _ _ hc, hin.1]
      simp
    · unfold parseToks
      rw [show c :: ts ++ [">"] = c :: (ts ++ [">"]) from rfl,
          procTokens_plain _ _ _ hc, hin.2]
      simp

/-- Witness for `redirection_operator_rules` at concrete tokens. -/
theorem redirection_operator_rules_witness :
    parseToks ["cat", "<", "in.txt"] =
      .ok ⟨some "cat", ["cat"], some "in.txt", none, false⟩ ∧
    parseToks ["cat", "<in.txt"] =
      .ok ⟨some "cat", ["cat", "<in.txt"], none, none, false⟩ ∧
    parseToks ["cat", "x", "<"] = .err :=
  ⟨redirection_operator_rules.1 "cat" "in.txt" (by decide) (by decide),
   redirection_operator_rules.2.1 "cat" "<in.txt" (by decide) (by decide),
   (redirection_operator_rules.2.2.2.2 "cat" ["x"] (by decide)
     (by decide)).1⟩

/-- Claim C10: a standalone non-final `<` or `>` unconditionally consumes
the immediately following token as the redirection filename, with no
validation — even when that token is `&`, `<` or `>`; e.g. `cmd < &`
parses successfully with input redirect `&` and background false. -/
theorem redirect_filename_unvalidated :
    (∀ (f : String) (rest : List String) (pc : command_t),
      procTokens ("<" :: f :: rest) pc =
        procTokens rest { pc with input_file := some f })
    ∧ (∀ (f : String) (rest : List String) (pc : command_t),
      procTokens (">" :: f :: rest) pc =
        procTokens rest { pc with output_file := some f })
    ∧ parseLine "cmd < &" =
        .ok ⟨some "cmd", ["cmd"], some "&", none, false⟩
    ∧ parseLine "cmd > <" =
        .ok ⟨some "cmd", ["cmd"], none, some "<", false⟩ :=
  ⟨procTokens_input, procTokens_output, by decide, by decide⟩

/-! ### Concrete states used by counterexamples and witnesses -/

/-- A fresh shell state: no jobs, normal mode, clean status. -/
def st0 : ShellState := ⟨[], false, 0, 0, 0, "/"⟩

/-- A state whose job registry has already received `MAX_BG_PROCESSES`
entries over its lifetime. -/
def fullState : ShellState := ⟨List.replicate 100 ⟨7, true⟩, false, 0, 0, 0, "/"⟩

/-- A state whose last foreground child exited with code 5. -/
def st5 : ShellState := ⟨[], false, 5, 0, 0, "/"⟩

/-- A parsed `sleep 10 &` command. -/
def bgCmd : command_t := ⟨some "sleep", ["sleep", "10"], none, none, true⟩

/-- A parsed foreground `ls` command. -/
def fgCmd : command_t := ⟨some "ls", ["ls"], none, none, false⟩

/-- A parsed `status` command. -/
def statusCmd : command_t := ⟨some "status", ["status"], none, none, false⟩

/-! ### Claims about the process executor (C1, C2, C7) -/

/-- Claim C1 (counterexample): with the registry already holding
`MAX_BG_PROCESSES` entries, a background spawn still reports
"background pid is 42" but the child pid 42 is NOT recorded as an active
Job — the registry is left unchanged.  This refutes the unconditional
"records the child pid as an active Job". -/
theorem background_spawn_counterexample :
    run_in_background bgCmd false = true ∧
    (execute_external_command bgCmd fullState false (.success 42)
        (.exited 0)).2.1 = ["background pid is 42"] ∧
    (execute_external_command bgCmd fullState false (.success 42)
        (.exited 0)).1.background_processes = fullState.background_processes ∧
    (42 : Nat) ∉ ((execute_external_command bgCmd fullState false (.success 42)
        (.exited 0)).1.background_processes.map (fun j => j.pid)) := by
  decide

/-- Claim C1 (amended): a spawned command runs in the background iff its
background flag is set and foreground-only mode is off; in that case the
parent reports exactly "background pid is <pid>", records the pid as an
active Job provided fewer than `MAX_BG_PROCESSES` jobs have ever been
registered, does not consult the wait outcome at all, and leaves every
last-status field unchanged. -/
theorem background_spawn_behavior :
    ∀ (cmd : command_t) (st : ShellState) (fg : Bool) (p code : Nat)
      (w : WaitOutcome),
      run_in_background cmd fg = (cmd.background && !fg)
      ∧ ((s!"background pid is {p}") ∈
            (execute_external_command cmd st fg (.success p)
              (.exited code)).2.1
          ↔ run_in_background cmd fg = true)
      ∧ (run_in_background cmd fg = true →
          (execute_external_command cmd st fg (.success p) w).2.1 =
            [s!"background pid is {p}"]
          ∧ (st.background_processes.length < MAX_BG_PROCESSES →
              (execute_external_command cmd st fg (.success p)
                  w).1.background_processes =
                st.background_processes ++ [⟨p, true⟩])
          ∧ (execute_external_command cmd st fg (.success p)
                w).1.last_exit_status = st.last_exit_status
          ∧ (execute_external_command cmd st fg (.success p)
                w).1.last_signal = st.last_signal
          ∧ (execute_external_command cmd st fg (.success p)
                w).1.main_status = st.main_status
          ∧ ∀ w2, execute_external_command cmd st fg (.success p) w2 =
              execute_external_command cmd st fg (.success p) w) := by
  intro cmd st fg p code w
  refine ⟨rfl, ?_, ?_⟩
  · by_cases hbg : run_in_background cmd fg = true
    · simp [execute_external_command, hbg]
    · simp [execute_external_command, hbg]
  · intro hbg
    refine ⟨?_, ?_, ?_, ?_, ?_, ?_⟩
    · simp [execute_external_command, hbg]
    · intro hlen
      simp [execute_external_command, hbg, hlen]
    · simp only [execute_external_command, hbg, if_true]
      split <;> rfl
    · simp only [execute_external_command, hbg, if_true]
      split <;> rfl
    · simp only [execute_external_command, hbg, if_true]
      split <;> rfl
    · intro w2
      simp [execute_external_command, hbg]

/-- Witness for `background_spawn_behavior`: a background `sleep 10 &`
spawned as pid 5 from a fresh state. -/
theorem background_spawn_behavior_witness :
    (execute_external_command bgCmd st0 false (.success 5)
        (.exited 0)).2.1 = ["background pid is 5"] :=
  ((background_spawn_behavior bgCmd st0 false 5 0 (.exited 0)).2.2
    (by decide)).1

/-- Claim C2: a foreground completion records exactly one of exit code or
terminating signal (setting one clears the other); the `status` built-in
prints "terminated by signal N" when the most recent completion was a
signal termination and "exit value N" otherwise, and of two successive
completions the more recent one wins. -/
theorem foreground_status_reporting :
    ∀ (cmd : command_t) (st : ShellState) (fg : Bool) (p code sig : Nat)
      (home : Option String) (ck : String → Bool),
      run_in_background cmd fg = false →
      sig ≠ 0 →
      execute_builtin statusCmd st home ck = .ret 0 st [status_report st]
      ∧ ((execute_external_command cmd st fg (.success p)
            (.exited code)).1.last_exit_status = code
        ∧ (execute_external_command cmd st fg (.success p)
            (.exited code)).1.last_signal = 0
        ∧ status_report (execute_external_command cmd st fg (.success p)
            (.exited code)).1 = s!"exit value {code}")
      ∧ ((execute_external_command cmd st fg (.success p)
            (.signaled sig)).1.last_signal = sig
        ∧ (execute_external_command cmd st fg (.success p)
            (.signaled sig)).1.last_exit_status = 0
        ∧ status_report (execute_external_command cmd st fg (.success p)
            (.signaled sig)).1 = s!"terminated by signal {sig}")
      ∧ status_report (execute_external_command cmd
            (execute_external_command cmd st fg (.success p)
              (.exited code)).1
            fg (.success p) (.signaled sig)).1 = s!"terminated by signal {sig}"
      ∧ status_report (execute_external_command cmd
            (execute_external_command cmd st fg (.success p)
              (.signaled sig)).1
            fg (.success p) (.exited code)).1 = s!"exit value {code}" := by
  intro cmd st fg p code sig home ck hbg hsig
  refine ⟨?_, ?_, ?_, ?_, ?_⟩
  · simp [execute_builtin, statusCmd, get_builtin_type]
  · simp [execute_external_command, hbg, status_report]
  · simp [execute_external_command, hbg, status_report, hsig]
  · simp [execute_external_command, hbg, status_report, hsig]
  · simp [execute_external_command, hbg, status_report]

/-- Witness for `foreground_status_reporting`: foreground `ls`, pid 3,
exit code 2, signal 9. -/
theorem foreground_status_reporting_witness :
    (execute_external_command fgCmd st0 false (.success 3)
        (.exited 2)).1.last_exit_status = 2
    ∧ status_report (execute_external_command fgCmd st0 false (.success 3)
        (.signaled 9)).1 = "terminated by signal 9" :=
  ⟨((foreground_status_reporting fgCmd st0 false 3 2 9 none (fun _ => true)
      (by decide) (by decide)).2.1).1,
   ((foreground_status_reporting fgCmd st0 false 3 2 9 none (fun _ => true)
      (by decide) (by decide)).2.2.1).2.2⟩

/-- Claim C7 (counterexample): after a fork failure the executor sets the
loop variable `status` (out-parameter `last_status`) to 1, but the globals
read by the `status` built-in are untouched: starting from a state whose
last foreground exit code is 5, the `status` built-in still reports
"exit value 5", not "exit value 1".  This refutes "the last-status exit
code observable via the `status` built-in is set to the sentinel value
1". -/
theorem spawn_failure_status_counterexample :
    (execute_external_command fgCmd st5 false .failure (.exited 0)).1.main_status = 1
    ∧ status_report (execute_external_command fgCmd st5 false .failure
        (.exited 0)).1 = "exit value 5"
    ∧ execute_builtin statusCmd
        (execute_external_command fgCmd st5 false .failure (.exited 0)).1
        none (fun _ => true)
      = .ret 0 ⟨[], false, 5, 0, 1, "/"⟩ ["exit value 5"]
    ∧ ("exit value 5" : String) ≠ "exit value 1" := by
  decide

/-- Claim C7 (amended): on a fork failure, and on a waitpid failure for a
foreground child, `execute_external_command` sets its `last_status`
out-parameter (main's `status` variable) to the sentinel 1 and returns -1
so the interactive loop continues; the globals behind the `status`
built-in are not updated, so its report is unchanged. -/
theorem spawn_wait_failure_sentinel :
    ∀ (cmd : command_t) (st : ShellState) (fg : Bool) (w : WaitOutcome)
      (p : Nat),
      ((execute_external_command cmd st fg .failure w).1.main_status = 1
        ∧ (execute_external_command cmd st fg .failure w).1.last_exit_status
            = st.last_exit_status
        ∧ (execute_external_command cmd st fg .failure w).1.last_signal
            = st.last_signal
        ∧ status_report (execute_external_command cmd st fg .failure w).1
            = status_report st
        ∧ (execute_external_command cmd st fg .failure w).2.2 = -1)
      ∧ (run_in_background cmd fg = false →
          (execute_external_command cmd st fg (.success p)
              .failure).1.main_status = 1
          ∧ (execute_external_command cmd st fg (.success p)
              .failure).1.last_exit_status = st.last_exit_status
          ∧ (execute_external_command cmd st fg (.success p)
              .failure).1.last_signal = st.last_signal
          ∧ status_report (execute_external_command cmd st fg (.success p)
              .failure).1 = status_report st
          ∧ (execute_external_command cmd st fg (.success p)
              .failure).2.2 = -1) := by
  intro cmd st fg w p
  constructor
  · exact ⟨rfl, rfl, rfl, rfl, rfl⟩
  · intro hbg
    simp [execute_external_command, hbg, status_report]

/-- Witness for `spawn_wait_failure_sentinel`: fork failure, and wait
failure on a foreground `ls`, from the exit-code-5 state. -/
theorem spawn_wait_failure_sentinel_witness :
    (execute_external_command fgCmd st5 false .failure (.exited 0)).1.main_status = 1
    ∧ status_report (execute_external_command fgCmd st5 false (.success 3)
        .failure).1 = status_report st5 :=
  ⟨((spawn_wait_failure_sentinel fgCmd st5 false (.exited 0) 3).1).1,
   ((spawn_wait_failure_sentinel fgCmd st5 false (.exited 0) 3).2
      (by decide)).2.2.2.1⟩

/-! ### Claim about the `cd` built-in (C8) -/

/-- Claim C8: the `cd` built-in never mutates the last-status fields,
whether it succeeds or fails, so a subsequent `status` reports the same
outcome as before the `cd`. -/
theorem cd_preserves_status :
    ∀ (cmd : command_t) (st : ShellState) (home : Option String)
      (ck : String → Bool) (code : Int) (st2 : ShellState)
      (out : List String),
      cmd.command = some "cd" →
      execute_builtin cmd st home ck = .ret code st2 out →
      st2.last_exit_status = st.last_exit_status
      ∧ st2.last_signal = st.last_signal
      ∧ st2.main_status = st.main_status
      ∧ status_report st2 = status_report st := by
  intro cmd st home ck code st2 out hcmd h
  have hbt : get_builtin_type "cd" = builtin_type_t.BUILTIN_CD := by decide
  simp only [execute_builtin, hcmd, hbt] at h
  split at h
  · split at h
    · cases h; exact ⟨rfl, rfl, rfl, rfl⟩
    · split at h
      · cases h; exact ⟨rfl, rfl, rfl, rfl⟩
      · cases h; exact ⟨rfl, rfl, rfl, rfl⟩
  · split at h
    · split at h
      · cases h; exact ⟨rfl, rfl, rfl, rfl⟩
      · cases h; exact ⟨rfl, rfl, rfl, rfl⟩
    · cases h; exact ⟨rfl, rfl, rfl, rfl⟩

/-- Witness for `cd_preserves_status`: `cd` with no arguments, HOME set to
`/home/u`, chdir succeeding. -/
theorem cd_preserves_status_witness :
    (⟨[], false, 0, 0, 0, "/home/u"⟩ : ShellState).last_exit_status
        = st0.last_exit_status
    ∧ (⟨[], false, 0, 0, 0, "/home/u"⟩ : ShellState).last_signal
        = st0.last_signal
    ∧ (⟨[], false, 0, 0, 0, "/home/u"⟩ : ShellState).main_status
        = st0.main_status
    ∧ status_report ⟨[], false, 0, 0, 0, "/home/u"⟩ = status_report st0 :=
  cd_preserves_status ⟨some "cd", ["cd"], none, none, false⟩ st0
    (some "/home/u") (fun _ => true) 0 ⟨[], false, 0, 0, 0, "/home/u"⟩
    ["Changed directory to: /home/u"] rfl (by decide)

/-! ### Helper lemmas about the job tracker -/

/-- A poll result that means the process has terminated (waitpid returned
the pid and WIFEXITED or WIFSIGNALED holds). -/
def isDone : BgPoll → Bool
  | .exitedBg _ => true
  | .signaledBg _ => true
  | _ => false

/-- The report `check_background_processes` prints for pid `p` on a
termination poll result. -/
def doneReport (p : Nat) : BgPoll → List (Nat × String)
  | .exitedBg code => [(p, bg_done_exit_msg p code)]
  | .signaledBg sig => [(p, bg_done_signal_msg p sig)]
  | _ => []

theorem check_bg_nil (poll : Nat → BgPoll) :
    check_background_processes [] poll = ([], []) := rfl

theorem check_bg_cons (j : bg_process_t) (rest : List bg_process_t)
    (poll : Nat → BgPoll) :
    check_background_processes (j :: rest) poll =
      ((check_one poll j).1 :: (check_background_processes rest poll).1,
       (check_one poll j).2 ++ (check_background_processes rest poll).2) := rfl

theorem check_one_pid (poll : Nat → BgPoll) (j : bg_process_t) :
    (check_one poll j).1.pid = j.pid := by
  unfold check_one
  split
  · split <;> rfl
  · rfl

theorem check_one_inactive (poll : Nat → BgPoll) (j : bg_process_t)
    (h : j.active = false) : check_one poll j = (j, []) := by
  unfold check_one
  simp [h]

theorem check_one_running (poll : Nat → BgPoll) (j : bg_process_t)
    (ha : j.active = true) (hp : poll j.pid = .stillRunning) :
    check_one poll j = (j, []) := by
  unfold check_one
  simp [ha, hp]

theorem check_one_error_case (poll : Nat → BgPoll) (j : bg_process_t)
    (ha : j.active = true) (hp : poll j.pid = .checkError) :
    check_one poll j = ({ j with active := false }, []) := by
  unfold check_one
  simp [ha, hp]

theorem check_one_done (poll : Nat → BgPoll) (j : bg_process_t)
    (ha : j.active = true) (hd : isDone (poll j.pid) = true) :
    check_one poll j =
      ({ j with active := false }, doneReport j.pid (poll j.pid)) := by
  unfold check_one
  cases hpoll : poll j.pid with
  | stillRunning => rw [hpoll] at hd; cases hd
  | checkError => rw [hpoll] at hd; cases hd
  | exitedBg code => simp [ha, hpoll, doneReport]
  | signaledBg sig => simp [ha, hpoll, doneReport]

theorem check_one_out_pid (poll : Nat → BgPoll) (j : bg_process_t) :
    ∀ r ∈ (check_one poll j).2, r.1 = j.pid := by
  unfold check_one
  split
  · split <;> simp
  · simp

theorem check_one_active_mono (poll : Nat → BgPoll) (j : bg_process_t)
    (h : (check_one poll j).1.active = true) : j.active = true := by
  cases hj : j.active with
  | false =>
    rw [check_one_inactive poll j hj] at h
    rw [hj] at h
    cases h
  | true => rfl

theorem check_bg_pids (jobs : List bg_process_t) (poll : Nat → BgPoll) :
    (check_background_processes jobs poll).1.map (fun j => j.pid) =
      jobs.map (fun j => j.pid) := by
  induction jobs with
  | nil => rfl
  | cons j rest ih =>
    rw [check_bg_cons]
    simp only [List.map_cons]
    rw [check_one_pid, ih]

theorem check_bg_out_pids (jobs : List bg_process_t) (poll : Nat → BgPoll) :
    ∀ r ∈ (check_background_processes jobs poll).2,
      r.1 ∈ jobs.map (fun j => j.pid) := by
  induction jobs with
  | nil => intro r hr; cases hr
  | cons j rest ih =>
    intro r hr
    rw [check_bg_cons] at hr
    simp only [List.mem_append] at hr
    rcases hr with hr | hr
    · simp [check_one_out_pid poll j r hr]
    · simp only [List.map_cons, List.mem_cons]
      exact Or.inr (ih r hr)

/-- If every registered job with pid `p` is already inactive, a poll
prints no report mentioning `p`. -/
theorem check_bg_filter_inactive (jobs : List bg_process_t)
    (poll : Nat → BgPoll) (p : Nat)
    (h : ∀ j ∈ jobs, j.pid = p → j.active = false) :
    ((check_background_processes jobs poll).2.filter
      (fun r => r.1 == p)) = [] := by
  induction jobs with
  | nil => rfl
  | cons j rest ih =>
    rw [check_bg_cons]
    simp only [List.filter_append]
    rw [ih (fun j2 hm hp => h j2 (List.mem_cons_of_mem j hm) hp)]
    rw [List.append_nil]
    by_cases hjp : j.pid = p
    · rw [check_one_inactive poll j (h j (List.mem_cons_self j rest) hjp)]
      rfl
    · rw [List.filter_eq_nil_iff]
      intro r hr
      rw [check_one_out_pid poll j r hr]
      simp [hjp]

/-- Core lemma for C3: in a registry with distinct pids containing the
active job `p`, a poll in which `p` has terminated prints exactly the one
report for `p`, and afterwards every entry with pid `p` is the inactive
`⟨p, false⟩`. -/
theorem check_bg_main (jobs : List bg_process_t) (poll : Nat → BgPoll)
    (p : Nat) (hnd : (jobs.map (fun j => j.pid)).Nodup)
    (hm : (⟨p, true⟩ : bg_process_t) ∈ jobs)
    (hd : isDone (poll p) = true) :
    ((check_background_processes jobs poll).2.filter
        (fun r => r.1 == p)) = doneReport p (poll p)
    ∧ (∀ j2 ∈ (check_background_processes jobs poll).1,
        j2.pid = p → j2 = ⟨p, false⟩)
    ∧ (⟨p, false⟩ : bg_process_t) ∈ (check_background_processes jobs poll).1 := by
  induction jobs with
  | nil => cases hm
  | cons j rest ih =>
    rw [List.map_cons, List.nodup_cons] at hnd
    obtain ⟨hnd1, hnd2⟩ := hnd
    rw [check_bg_cons]
    rcases List.mem_cons.mp hm with hj | hj
    · -- the head is the job ⟨p, true⟩
      have hj2 : j = (⟨p, true⟩ : bg_process_t) := hj.symm
      subst hj2
      have hco := check_one_done poll ⟨p, true⟩ rfl hd
      rw [hco]
      have hp_not : p ∉ rest.map (fun j => j.pid) := hnd1
      have hout2 : ((check_background_processes rest poll).2.filter
          (fun r => r.1 == p)) = [] := by
        rw [List.filter_eq_nil_iff]
        intro r hr
        have := check_bg_out_pids rest poll r hr
        simp only [beq_iff_eq]
        intro hrp
        exact hp_not (hrp ▸ this)
      refine ⟨?_, ?_, ?_⟩
      · simp only [List.filter_append, hout2, List.append_nil]
        cases hpoll : poll p with
        | stillRunning => rw [hpoll] at hd; cases hd
        | checkError => rw [hpoll] at hd; cases hd
        | exitedBg code => simp [doneReport]
        | signaledBg sig => simp [doneReport]
      · intro j2 hm2 hpid
        rcases List.mem_cons.mp hm2 with h2 | h2
        · exact h2
        · exfalso
          apply hp_not
          rw [← check_bg_pids rest poll]
          exact hpid ▸ List.mem_map.mpr ⟨j2, h2, rfl⟩
      · exact List.mem_cons_self _ _
    · -- ⟨p, true⟩ sits in the tail
      have hne : j.pid ≠ p := by
        intro hcontra
        exact hnd1 (hcontra ▸ List.mem_map.mpr ⟨⟨p, true⟩, hj, rfl⟩)
      obtain ⟨ih1, ih2, ih3⟩ := ih hnd2 hj
      have hout1 : ((check_one poll j).2.filter (fun r => r.1 == p)) = [] := by
        rw [List.filter_eq_nil_iff]
        intro r hr
        rw [check_one_out_pid poll j r hr]
        simp [hne]
      refine ⟨?_, ?_, ?_⟩
      · rw [List.filter_append, hout1, List.nil_append, ih1]
      · intro j2 hm2 hpid
        rcases List.mem_cons.mp hm2 with h2 | h2
        · exfalso
          apply hne
          rw [← check_one_pid poll j, ← h2, hpid]
        · exact ih2 j2 h2 hpid
      · exact List.mem_cons_of_mem _ ih3

/-! ### Claims about the job tracker and registry (C3, C9) -/

/-- Claim C3: a registered active job whose process has terminated is
reported exactly once by one non-blocking poll (with the exit-value or
signal message) and marked inactive, so any later poll prints no report
for that job; a poll error marks the job inactive silently; a
still-running job is left untouched. -/
theorem bg_completion_reported_once :
    (∀ (jobs : List bg_process_t) (poll : Nat → BgPoll) (p : Nat),
      (jobs.map (fun j => j.pid)).Nodup →
      (⟨p, true⟩ : bg_process_t) ∈ jobs →
      isDone (poll p) = true →
      ((check_background_processes jobs poll).2.filter
          (fun r => r.1 == p)) = doneReport p (poll p)
      ∧ doneReport p (poll p) ≠ []
      ∧ (⟨p, false⟩ : bg_process_t) ∈ (check_background_processes jobs poll).1
      ∧ ∀ poll2 : Nat → BgPoll,
          ((check_background_processes
              (check_background_processes jobs poll).1 poll2).2.filter
            (fun r => r.1 == p)) = [])
    ∧ (∀ p code : Nat,
        doneReport p (BgPoll.exitedBg code) = [(p, bg_done_exit_msg p code)])
    ∧ (∀ p sig : Nat,
        doneReport p (BgPoll.signaledBg sig) = [(p, bg_done_signal_msg p sig)])
    ∧ (∀ (poll : Nat → BgPoll) (j : bg_process_t), j.active = true →
        poll j.pid = .checkError →
        check_one poll j = ({ j with active := false }, []))
    ∧ (∀ (poll : Nat → BgPoll) (j : bg_process_t), j.active = true →
        poll j.pid = .stillRunning → check_one poll j = (j, [])) := by
  refine ⟨?_, fun p code => rfl, fun p sig => rfl,
    check_one_error_case, check_one_running⟩
  intro jobs poll p hnd hm hd
  obtain ⟨h1, h2, h3⟩ := check_bg_main jobs poll p hnd hm hd
  refine ⟨h1, ?_, h3, ?_⟩
  · cases hpoll : poll p with
    | stillRunning => rw [hpoll] at hd; cases hd
    | checkError => rw [hpoll] at hd; cases hd
    | exitedBg code => simp [doneReport]
    | signaledBg sig => simp [doneReport]
  · intro poll2
    exact check_bg_filter_inactive _ poll2 p
      (fun j2 hm2 hpid => by rw [h2 j2 hm2 hpid])

/-- Witness for `bg_completion_reported_once`: one active job with pid 5
whose process exited with code 7. -/
theorem bg_completion_reported_once_witness :
    ((check_background_processes [⟨5, true⟩] (fun _ => .exitedBg 7)).2.filter
        (fun r => r.1 == 5)) = [(5, bg_done_exit_msg 5 7)]
    ∧ (⟨5, false⟩ : bg_process_t) ∈
        (check_background_processes [⟨5, true⟩] (fun _ => .exitedBg 7)).1 := by
  have h := bg_completion_reported_once.1 [⟨5, true⟩] (fun _ => .exitedBg 7) 5
    (by decide) (by decide) (by decide)
  exact ⟨h.1, h.2.2.1⟩

/-- Claim C9: the registry only ever appends (slots of reaped jobs are
never reused and the insertion count never decreases), polls preserve the
pid sequence and never re-activate an entry, and once the registry has
received `MAX_BG_PROCESSES` insertions a further background spawn is
reported by pid but leaves the whole state unchanged; poll reports and
exit cleanup only ever touch pids present in the registry, so such an
untracked process is never reported on completion and never terminated by
cleanup. -/
theorem bg_registry_lifetime :
    (∀ (cmd : command_t) (st : ShellState) (fg : Bool) (fork : ForkResult)
      (w : WaitOutcome),
      (execute_external_command cmd st fg fork w).1.background_processes
        = st.background_processes
      ∨ ∃ j, (execute_external_command cmd st fg fork w).1.background_processes
        = st.background_processes ++ [j])
    ∧ (∀ (jobs : List bg_process_t) (poll : Nat → BgPoll),
        (check_background_processes jobs poll).1.map (fun j => j.pid)
          = jobs.map (fun j => j.pid))
    ∧ (∀ (jobs : List bg_process_t) (poll : Nat → BgPoll),
        (check_background_processes jobs poll).1.length = jobs.length)
    ∧ (∀ (jobs : List bg_process_t) (poll : Nat → BgPoll) (i : Nat)
        (h1 : i < jobs.length)
        (h2 : i < (check_background_processes jobs poll).1.length),
        ((check_background_processes jobs poll).1.get ⟨i, h2⟩).active = true →
        (jobs.get ⟨i, h1⟩).active = true)
    ∧ (∀ (cmd : command_t) (st : ShellState) (fg : Bool) (p : Nat)
        (w : WaitOutcome),
        st.background_processes.length = MAX_BG_PROCESSES →
        run_in_background cmd fg = true →
        (execute_external_command cmd st fg (.success p) w).1 = st
        ∧ (execute_external_command cmd st fg (.success p) w).2.1
            = [s!"background pid is {p}"])
    ∧ (∀ (jobs : List bg_process_t) (poll : Nat → BgPoll) (r : Nat × String),
        r ∈ (check_background_processes jobs poll).2 →
        r.1 ∈ jobs.map (fun j => j.pid))
    ∧ (∀ (jobs : List bg_process_t) (p : Nat),
        p ∈ cleanup_all_background_processes jobs →
        p ∈ jobs.map (fun j => j.pid)) := by
  refine ⟨?_, check_bg_pids, ?_, ?_, ?_, check_bg_out_pids, ?_⟩
  · intro cmd st fg fork w
    cases fork with
    | failure => exact Or.inl rfl
    | success p =>
      by_cases hbg : run_in_background cmd fg = true
      · by_cases hlen : st.background_processes.length < MAX_BG_PROCESSES
        · exact Or.inr ⟨⟨p, true⟩, by simp [execute_external_command, hbg, hlen]⟩
        · exact Or.inl (by simp [execute_external_command, hbg, hlen])
      · cases w with
        | failure => exact Or.inl (by simp [execute_external_command, hbg])
        | exited code => exact Or.inl (by simp [execute_external_command, hbg])
        | signaled sig => exact Or.inl (by simp [execute_external_command, hbg])
  · intro jobs poll
    have := congrArg List.length (check_bg_pids jobs poll)
    simpa using this
  · intro jobs poll
    induction jobs with
    | nil => intro i h1; exact absurd h1 (by simp)
    | cons j rest ih =>
      intro i h1 h2 hact
      cases i with
      | zero => exact check_one_active_mono poll j hact
      | succ n =>
        exact ih n (Nat.lt_of_succ_lt_succ h1)
          (Nat.lt_of_succ_lt_succ h2) hact
  · intro cmd st fg p w hlen hbg
    have hnot : ¬ st.background_processes.length < MAX_BG_PROCESSES := by
      rw [hlen]; exact Nat.lt_irrefl _
    constructor
    · simp [execute_external_command, hbg, hnot]
    · simp [execute_external_command, hbg]
  · intro jobs p hp
    unfold cleanup_all_background_processes at hp
    rw [List.mem_map] at hp
    obtain ⟨j, hj, rfl⟩ := hp
    exact List.mem_map.mpr ⟨j, List.mem_of_mem_filter hj, rfl⟩

/-- Witness for `bg_registry_lifetime`: a background spawn (pid 9) into a
registry that has already received 100 insertions. -/
theorem bg_registry_lifetime_witness :
    (execute_external_command bgCmd fullState false (.success 9)
        (.exited 0)).1 = fullState
    ∧ (execute_external_command bgCmd fullState false (.success 9)
        (.exited 0)).2.1 = ["background pid is 9"] :=
  bg_registry_lifetime.2.2.2.2.1 bgCmd fullState false 9 (.exited 0)
    (by decide) (by decide)

/-! ### Claim about the tokenizer limits (C6) -/

theorem splitAux_delim_nilacc (c : Char) (cs : List Char)
    (hc : isDelim c = true) : splitAux (c :: cs) [] = splitAux cs [] := by
  simp [splitAux, hc]

/-- A line made only of delimiters splits into no tokens. -/
theorem splitToks_all_delim :
    ∀ line : List Char, (∀ c ∈ line, isDelim c = true) →
      splitToks line = [] := by
  intro line
  induction line with
  | nil => intro h; rfl
  | cons c cs ih =>
    intro h
    have hc : isDelim c = true := h c (List.mem_cons_self c cs)
    show splitAux (c :: cs) [] = []
    rw [splitAux_delim_nilacc c cs hc]
    exact ih (fun x hx => h x (List.mem_cons_of_mem c hx))

/-- A 2600-character line consisting of 1300 one-letter tokens. -/
def longLine : List Char := (List.replicate 1300 ['a', ' ']).flatten

theorem longLine_length : longLine.length = 2600 := by
  unfold longLine
  rw [List.length_flatten, List.map_replicate, List.sum_replicate]
  simp only [List.length_cons, List.length_nil, smul_eq_mul]

theorem splitAux_token_pair (xs : List Char) :
    splitAux ('a' :: ' ' :: xs) [] = "a" :: splitAux xs [] := by
  simp [splitAux, isDelim]

theorem splitToks_longLine : splitToks longLine = List.replicate 1300 "a" := by
  have key : ∀ n : Nat,
      splitAux ((List.replicate n ['a', ' ']).flatten) [] =
        List.replicate n "a" := by
    intro n
    induction n with
    | zero => rfl
    | succ k ih =>
      rw [List.replicate_succ, List.flatten_cons]
      show splitAux ('a' :: ' ' :: (List.replicate k ['a', ' ']).flatten) [] = _
      rw [splitAux_token_pair, ih, List.replicate_succ]
  exact key 1300

/-- Claim C6 (counterexample): `longLine` would split into 1300 > 512
tokens, yet the tokenizer reports the line-too-long error, not the
too-many-tokens error, because the length check runs first.  This refutes
"fails with a too-many-tokens error if and only if splitting would produce
more than 512 tokens". -/
theorem tokenize_limit_priority_counterexample :
    longLine.length = 2600
    ∧ (splitToks longLine).length = 1300
    ∧ MAX_LINE_LENGTH < 2600 ∧ MAX_ARGS < 1300
    ∧ tokenize_line longLine MAX_ARGS = .error .lineTooLong
    ∧ tokenize_line longLine MAX_ARGS ≠ .error .tooManyTokens := by
  have hlen := longLine_length
  have hgt : longLine.length > MAX_LINE_LENGTH := by
    rw [hlen]; norm_num [MAX_LINE_LENGTH]
  have he : tokenize_line longLine MAX_ARGS =
      Except.error TokenizeError.lineTooLong := by
    simp only [tokenize_line, if_pos hgt]
  refine ⟨hlen, ?_, by norm_num [MAX_LINE_LENGTH], by norm_num [MAX_ARGS],
    he, ?_⟩
  · rw [splitToks_longLine, List.length_replicate]
  · rw [he]; intro h; cases h

/-- Claim C6 (amended): the tokenizer fails with line-too-long iff the
line exceeds 2048 characters; it fails with too-many-tokens iff the line
is within the length limit and splitting would produce more than 512
tokens (the length check takes precedence when both limits are broken);
a blank line yields the empty token sequence as a valid outcome, not an
error. -/
theorem tokenize_line_limits :
    ∀ line : List Char,
      (tokenize_line line MAX_ARGS = .error .lineTooLong ↔
        line.length > MAX_LINE_LENGTH)
      ∧ (tokenize_line line MAX_ARGS = .error .tooManyTokens ↔
        (line.length ≤ MAX_LINE_LENGTH ∧ (splitToks line).length > MAX_ARGS))
      ∧ ((∀ c ∈ line, isDelim c = true) → line.length ≤ MAX_LINE_LENGTH →
          tokenize_line line MAX_ARGS = .ok []) := by
  intro line
  by_cases h1 : line.length > MAX_LINE_LENGTH
  · refine ⟨by simp [tokenize_line, h1], ?_, ?_⟩
    · simp only [tokenize_line, if_pos h1]
      constructor
      · intro h; cases h
      · intro ⟨ha, _⟩; omega
    · intro _ h2; omega
  · by_cases h2 : (splitToks line).length > MAX_ARGS
    · have he : tokenize_line line MAX_ARGS =
          Except.error TokenizeError.tooManyTokens := by
        simp only [tokenize_line, if_neg h1, if_pos h2]
      refine ⟨?_, ?_, ?_⟩
      · rw [he]
        constructor
        · intro h; cases h
        · intro h; omega
      · rw [he]
        constructor
        · intro _; exact ⟨by omega, h2⟩
        · intro _; rfl
      · intro hall hle
        exfalso
        rw [splitToks_all_delim line hall] at h2
        simp [MAX_ARGS] at h2
    · have he : tokenize_line line MAX_ARGS = Except.ok (splitToks line) := by
        simp only [tokenize_line, if_neg h1, if_neg h2]
      refine ⟨?_, ?_, ?_⟩
      · rw [he]
        constructor
        · intro h; cases h
        · intro h; omega
      · rw [he]
        constructor
        · intro h; cases h
        · intro ⟨_, hb⟩; omega
      · intro hall _
        rw [he, splitToks_all_delim line hall]

/-- Witness for `tokenize_line_limits`: a blank line of one space. -/
theorem tokenize_line_limits_witness :
    tokenize_line [' '] MAX_ARGS = .ok [] :=
  (tokenize_line_limits [' ']).2.2 (by decide) (by decide)

end Smallsh
